import Mathlib

/-!
Shallow embedding of the rule engine in src/rule_based_system.py.

The engine's data are Python values: numbers, booleans, strings and
(possibly nested) lists thereof, modelled by the inductive type `Value`
(numbers as exact rationals).  A Python dict of facts is modelled as an
association list from field names to values.  A rule dict is modelled by
the structure `Rule`, whose four relevant keys (`name`, `priority`,
`conditions`, `action`) are each optional, mirroring `rule.get`.

Python code can raise exceptions, and the engine's try/except only covers
the predicate application inside `evaluate_condition`; faults elsewhere
(calling `len` on a non-sized condition, testing dict membership of an
unhashable field or operator, iterating a non-iterable `conditions`
value, sorting rules whose priority keys are mutually incomparable)
propagate out.  Fallible computations are therefore modelled in
`Except Unit` with `.error ()` standing for an uncaught Python exception.

Modelling notes, each traceable to Python semantics:
- `bool` participates in numeric comparison (`True == 1`), so numeric
  comparison goes through `toNum?`;
- `==`/`!=` never raise on these value shapes; ordered comparison is
  defined for number/number, string/string and elementwise for
  list/list, and raises otherwise;
- `a in b` is membership for a list `b`, substring test when both are
  strings, and raises otherwise;
- a condition of length three destructures whether it is a list or a
  three-character string (strings are sized and iterable in Python);
- `all(...)` short-circuits at the first false condition, so a later
  faulty condition is never reached;
- `sorted(..., reverse=True)` is stable descending; it is modelled as an
  insertion sort that keeps earlier input elements in front of
  equal-priority later ones, guarded by mutual comparability of the keys.
-/

namespace RuleSys

/-- Python scalar or list value as handled by the engine. -/
inductive Value where
  | num (q : Rat)
  | bool (b : Bool)
  | str (s : String)
  | list (l : List Value)

/-- Numeric reading of a value: Python treats booleans as the integers 0 and 1
for arithmetic comparison purposes. -/
def toNum? : Value → Option Rat
  | .num q => some q
  | .bool b => some (if b then 1 else 0)
  | _ => none

/-- Three-way comparison of rationals, written with explicit tests so that it
rewrites by simp. -/
def ratCmp (a b : Rat) : Ordering :=
  if a < b then .lt else if a = b then .eq else .gt

/-- Three-way comparison of strings (lexicographic, as in Python). -/
def strCmp (a b : String) : Ordering :=
  if a < b then .lt else if a = b then .eq else .gt

mutual

/-- Python equality `a == b` restricted to the embedded value shapes: numeric
equality across numbers and booleans, structural equality on strings and
lists, and `False` between distinct shapes.  It never raises. -/
def pyEq : Value → Value → Bool
  | .num a, .num b => decide (a = b)
  | .num a, .bool b => decide (a = (if b then (1 : Rat) else 0))
  | .bool a, .num b => decide ((if a then (1 : Rat) else 0) = b)
  | .bool a, .bool b => a == b
  | .str a, .str b => decide (a = b)
  | .list a, .list b => listEq a b
  | _, _ => false

/-- Python equality of two lists: equal length and elementwise `pyEq`. -/
def listEq : List Value → List Value → Bool
  | [], [] => true
  | a :: as, b :: bs => pyEq a b && listEq as bs
  | _, _ => false

end

mutual

/-- Python ordered comparison: `some` ordering when the two values are
comparable (numbers with numbers or booleans, strings with strings, lists
elementwise), `none` when Python would raise a `TypeError`. -/
def pyCompare : Value → Value → Option Ordering
  | .num a, .num b => some (ratCmp a b)
  | .num a, .bool b => some (ratCmp a (if b then 1 else 0))
  | .bool a, .num b => some (ratCmp (if a then 1 else 0) b)
  | .bool a, .bool b => some (ratCmp (if a then 1 else 0) (if b then 1 else 0))
  | .str a, .str b => some (strCmp a b)
  | .list a, .list b => cmpList a b
  | _, _ => none

/-- Python list comparison: find the first elementwise-unequal pair and
compare it; a proper shared head makes the shorter list smaller. -/
def cmpList : List Value → List Value → Option Ordering
  | [], [] => some .eq
  | [], _ :: _ => some .lt
  | _ :: _, [] => some .gt
  | a :: as, b :: bs => if pyEq a b then cmpList as bs else pyCompare a b

end

/-- Test whether the character list `needle` is an initial block of `hay`. -/
def isPre : List Char → List Char → Bool
  | [], _ => true
  | _ :: _, [] => false
  | a :: as, b :: bs => a == b && isPre as bs

/-- Test whether `needle` occurs as a contiguous block inside `hay`. -/
def hasSub (needle : List Char) : List Char → Bool
  | [] => needle.isEmpty
  | h :: t => isPre needle (h :: t) || hasSub needle t

/-- Python membership `a in b`: list membership via `pyEq`, substring test
when both sides are strings, and a `TypeError` (`none`) otherwise. -/
def pyIn (a b : Value) : Option Bool :=
  match b with
  | .list l => some (l.any (fun e => pyEq a e))
  | .str t =>
    match a with
    | .str s => some (hasSub s.toList t.toList)
    | _ => none
  | _ => none

/-- Predicate of the operator symbol `==`; `operator.eq` never raises on
the embedded value shapes. -/
def opEq (a b : Value) : Option Bool := some (pyEq a b)

/-- Predicate of the operator symbol `!=`. -/
def opNe (a b : Value) : Option Bool := some (!pyEq a b)

/-- Predicate of the operator symbol `>`; raises exactly where ordered
comparison does. -/
def opGt (a b : Value) : Option Bool := (pyCompare a b).map (fun o => o = .gt)

/-- Predicate of the operator symbol `>=`. -/
def opGe (a b : Value) : Option Bool := (pyCompare a b).map (fun o => o ≠ .lt)

/-- Predicate of the operator symbol `<`. -/
def opLt (a b : Value) : Option Bool := (pyCompare a b).map (fun o => o = .lt)

/-- Predicate of the operator symbol `<=`. -/
def opLe (a b : Value) : Option Bool := (pyCompare a b).map (fun o => o ≠ .gt)

/-- Predicate of the operator symbol `in`. -/
def opIn (a b : Value) : Option Bool := pyIn a b

/-- Predicate of the operator symbol `not_in`. -/
def opNotIn (a b : Value) : Option Bool := (pyIn a b).map (!·)

/-- Operator registry: the dict `OPS` of the source, as a partial map from
operator symbols to binary predicates.  A predicate returns `none` where
applying the corresponding Python operator would raise. -/
def OPS : String → Option (Value → Value → Option Bool)
  | "==" => some opEq
  | "!=" => some opNe
  | ">" => some opGt
  | ">=" => some opGe
  | "<" => some opLt
  | "<=" => some opLe
  | "in" => some opIn
  | "not_in" => some opNotIn
  | _ => none

/-- Fact set: a Python dict from field names to values. -/
abbrev Facts := List (String × Value)

/-- Dict lookup on a fact set. -/
def lookupF (s : String) : Facts → Option Value
  | [] => none
  | (k, v) :: t => if k = s then some v else lookupF s t

/-- Action dict of a rule: the engine reads and writes only the keys
`decision` and `reason` and otherwise treats actions opaquely. -/
structure Action where
  decision : String
  reason : String
deriving DecidableEq, Repr

/-- Rule dict: every key the engine reads is optional, mirroring
`rule.get` on a Python dict. -/
structure Rule where
  name : Option String
  priority : Option Value
  conditions : Option Value
  action : Option Action

/-- Body of `evaluate_condition` after the length-3 destructuring
`field, op, value = cond`.  Python evaluates `field not in facts` first —
raising on an unhashable (list) field — and short-circuits, so the
operator is only hashed and looked up when the field was found; the
try/except around the predicate application turns `none` into `False`. -/
def evalTriple (facts : Facts) (f o v : Value) : Except Unit Bool :=
  match f with
  | .list _ => .error ()
  | .str s =>
    match lookupF s facts with
    | none => .ok false
    | some fv =>
      match o with
      | .list _ => .error ()
      | .str os =>
        match OPS os with
        | none => .ok false
        | some p => .ok ((p fv v).getD false)
      | _ => .ok false
  | _ => .ok false

/-- Translation of `evaluate_condition(facts, cond)`.  `len(cond)` raises
on a number or boolean; a list or string of length other than three gives
`False`; a length-three list or string destructures into the field,
operator and value handled by `evalTriple`. -/
def evaluate_condition (facts : Facts) (cond : Value) : Except Unit Bool :=
  match cond with
  | .list [f, o, v] => evalTriple facts f o v
  | .list _ => .ok false
  | .str s =>
    match s.toList with
    | [a, b, c] =>
      evalTriple facts (.str (String.mk [a])) (.str (String.mk [b])) (.str (String.mk [c]))
    | _ => .ok false
  | _ => .error ()

/-- Iteration underlying `rule.get("conditions", [])`: a missing key
yields the empty list, a list yields its elements, a string yields its
characters as one-character strings, and a number or boolean raises when
`all` starts iterating it. -/
def condsList : Option Value → Except Unit (List Value)
  | none => .ok []
  | some (.list cs) => .ok cs
  | some (.str s) => .ok (s.toList.map (fun c => Value.str (String.mk [c])))
  | some _ => .error ()

/-- Translation of `all(evaluate_condition(facts, c) for c in ...)`:
short-circuits at the first false condition, propagates the first
uncaught fault. -/
def allMatch (facts : Facts) : List Value → Except Unit Bool
  | [] => .ok true
  | c :: cs =>
    match evaluate_condition facts c with
    | .error e => .error e
    | .ok false => .ok false
    | .ok true => allMatch facts cs

/-- Translation of `rule_matches(facts, rule)`. -/
def rule_matches (facts : Facts) (r : Rule) : Except Unit Bool :=
  match condsList r.conditions with
  | .error e => .error e
  | .ok cs => allMatch facts cs

/-- Boolean view of a successful, positive `rule_matches`. -/
def matchB (facts : Facts) (r : Rule) : Bool :=
  match rule_matches facts r with
  | .ok true => true
  | _ => false

/-- Translation of the comprehension `[r for r in rules if rule_matches(facts, r)]`,
propagating the first uncaught fault. -/
def filterMatched (facts : Facts) : List Rule → Except Unit (List Rule)
  | [] => .ok []
  | r :: rs =>
    match rule_matches facts r with
    | .error e => .error e
    | .ok true => (filterMatched facts rs).map (r :: ·)
    | .ok false => filterMatched facts rs

/-- Sort key `r.get("priority", 0)` of a rule. -/
def keyOf (r : Rule) : Value := r.priority.getD (.num 0)

/-- Strict descending test between two sort keys. -/
def gtB (a b : Value) : Bool := decide (pyCompare a b = some .gt)

/-- Insertion step of the stable descending sort: the new element `x`,
which occurred later in the input than everything in `l`, moves past
exactly the elements with strictly greater key, so it lands behind every
earlier element of equal key. -/
def insertDesc (x : Rule) : List Rule → List Rule
  | [] => [x]
  | h :: t => if gtB (keyOf h) (keyOf x) then h :: insertDesc x t else x :: h :: t

/-- Stable descending sort by priority key, the behaviour of
`sorted(fired, key=..., reverse=True)`. -/
def sortDesc : List Rule → List Rule
  | [] => []
  | x :: xs => insertDesc x (sortDesc xs)

/-- Mutual comparability of the sort keys; when it fails, `sorted` raises
a `TypeError` comparing two of them. -/
def allComparable : List Value → Bool
  | [] => true
  | k :: ks => ks.all (fun j => (pyCompare k j).isSome) && allComparable ks

/-- Fallback action returned when no rule fires. -/
def fallbackNoMatch : Action := ⟨"REVIEW", "No rule matched"⟩

/-- Substitute action when the winning rule has no `action` key. -/
def fallbackNoAction : Action := ⟨"REVIEW", "No action"⟩

/-- Reading `fired_sorted[0].get("action", {...})`. -/
def actionD (r : Rule) : Action := r.action.getD fallbackNoAction

/-- Translation of `run_rules(facts, rules)`. -/
def run_rules (facts : Facts) (rules : List Rule) : Except Unit (Action × List Rule) :=
  match filterMatched facts rules with
  | .error e => .error e
  | .ok [] => .ok (fallbackNoMatch, [])
  | .ok (r :: rs) =>
    if allComparable ((r :: rs).map keyOf) then
      match sortDesc (r :: rs) with
      | [] => .error ()
      | top :: rest => .ok (actionD top, top :: rest)
    else .error ()

/-- Shorthand for a `[field, operator, value]` condition literal. -/
def condV (f o : String) (v : Value) : Value := .list [.str f, .str o, v]

/-- Rule 1 of `DEFAULT_RULES`. -/
def ruleTopMerit : Rule :=
  { name := some "Top merit candidate"
    priority := some (.num 100)
    conditions := some (.list
      [ condV "cgpa" ">=" (.num (37/10))
      , condV "co_curricular_score" ">=" (.num 80)
      , condV "family_income" "<=" (.num 8000)
      , condV "disciplinary_actions" "==" (.num 0) ])
    action := some ⟨"AWARD_FULL",
      "Excellent academic & co-curricular performance, with acceptable need"⟩ }

/-- Rule 2 of `DEFAULT_RULES`. -/
def ruleGoodPartial : Rule :=
  { name := some "Good candidate - partial scholarship"
    priority := some (.num 80)
    conditions := some (.list
      [ condV "cgpa" ">=" (.num (33/10))
      , condV "co_curricular_score" ">=" (.num 60)
      , condV "family_income" "<=" (.num 12000)
      , condV "disciplinary_actions" "<=" (.num 1) ])
    action := some ⟨"AWARD_PARTIAL",
      "Good academic & involvement record with moderate need"⟩ }

/-- Rule 3 of `DEFAULT_RULES`. -/
def ruleNeedReview : Rule :=
  { name := some "Need-based review"
    priority := some (.num 70)
    conditions := some (.list
      [ condV "cgpa" ">=" (.num (5/2))
      , condV "family_income" "<=" (.num 4000) ])
    action := some ⟨"REVIEW", "High need but borderline academic score"⟩ }

/-- Rule 4 of `DEFAULT_RULES`. -/
def ruleLowCgpa : Rule :=
  { name := some "Low CGPA – not eligible"
    priority := some (.num 95)
    conditions := some (.list [ condV "cgpa" "<" (.num (5/2)) ])
    action := some ⟨"REJECT", "CGPA below minimum scholarship requirement"⟩ }

/-- Rule 5 of `DEFAULT_RULES`. -/
def ruleDisciplinary : Rule :=
  { name := some "Serious disciplinary record"
    priority := some (.num 90)
    conditions := some (.list [ condV "disciplinary_actions" ">=" (.num 2) ])
    action := some ⟨"REJECT", "Too many disciplinary records"⟩ }

/-- Built-in default rule set of the source, in source order. -/
def DEFAULT_RULES : List Rule :=
  [ruleTopMerit, ruleGoodPartial, ruleNeedReview, ruleLowCgpa, ruleDisciplinary]

/-- Fact set of Scenario D. -/
def factsScenarioD : Facts :=
  [("cgpa", .num 2), ("disciplinary_actions", .num 3)]

/-- Boolean view of a successfully evaluated condition (`False` also on a
fault, used only under hypotheses excluding faults). -/
def evalB (facts : Facts) (c : Value) : Bool :=
  match evaluate_condition facts c with
  | .ok true => true
  | _ => false

/-- Test for the list shape, the one unhashable and non-sized shape among
the embedded values. -/
def isListV : Value → Bool
  | .list _ => true
  | _ => false

/-- Conditions on which `evaluate_condition` cannot raise: anything sized
(string or list), where a length-three list must not carry a list in field
or operator position. -/
def condOk : Value → Bool
  | .str _ => true
  | .list [f, o, _] => !isListV f && !isListV o
  | .list _ => true
  | _ => false

/-- Rules on which `rule_matches` cannot raise: the `conditions` value, if
present, is iterable (string or list) and each listed condition is
`condOk`. -/
def ruleOk (r : Rule) : Bool :=
  match r.conditions with
  | none => true
  | some (.str _) => true
  | some (.list cs) => cs.all condOk
  | some _ => false

/-- Rules whose sort key is numeric, hence mutually comparable. -/
def keyNum (r : Rule) : Bool := (toNum? (keyOf r)).isSome

/-- Rule whose `conditions` key holds the number 5: Python raises a
`TypeError` on `len(5)` while iterating it. -/
def ruleBadConds : Rule :=
  { name := some "bad", priority := some (.num 1), conditions := some (.num 5), action := none }

/-- First of two always-matching rules sharing priority 50. -/
def ruleTieA : Rule :=
  { name := some "A", priority := some (.num 50), conditions := none,
    action := some ⟨"X", "first"⟩ }

/-- Second of two always-matching rules sharing priority 50. -/
def ruleTieB : Rule :=
  { name := some "B", priority := some (.num 50), conditions := none,
    action := some ⟨"Y", "second"⟩ }

/-- Well-shaped rule exercising all harmless condition shapes: a normal
triple, a string, a wrong-arity list and an empty list. -/
def ruleShaped : Rule :=
  { name := some "w", priority := some (.num 5),
    conditions := some (.list
      [condV "a" "==" (.num 1), .str "xy", .list [.num 1], .list []]),
    action := none }

mutual

/-- Syntactic equality test on values, underlying decidable equality. -/
def vBeq : Value → Value → Bool
  | .num a, .num b => decide (a = b)
  | .bool a, .bool b => a == b
  | .str a, .str b => decide (a = b)
  | .list a, .list b => vlBeq a b
  | _, _ => false

/-- Syntactic equality test on value lists. -/
def vlBeq : List Value → List Value → Bool
  | [], [] => true
  | a :: as, b :: bs => vBeq a b && vlBeq as bs
  | _, _ => false

end

/-- Always-matching rule carrying no `action` key. -/
def ruleNoAction : Rule :=
  { name := some "n", priority := some (.num 1), conditions := none, action := none }

/-- Fact set with a single numeric `cgpa` entry. -/
def factsMixed : Facts := [("cgpa", .num 2)]

/-- Condition pair with one true and one false condition on `factsMixed`. -/
def condsPair : List Value := [condV "cgpa" "<" (.num 3), condV "cgpa" ">" (.num 5)]

/-- Scenario D, condition `cgpa >= 3.7` of rule 1: `2 >= 3.7` is false. -/
theorem evalD_c1 :
    evaluate_condition factsScenarioD (condV "cgpa" ">=" (.num (37/10))) = .ok false := by
  norm_num [evaluate_condition, condV, evalTriple, factsScenarioD, lookupF, OPS, opGe,
    pyCompare, ratCmp]

/-- Scenario D, condition `cgpa >= 3.3` of rule 2: `2 >= 3.3` is false. -/
theorem evalD_c2 :
    evaluate_condition factsScenarioD (condV "cgpa" ">=" (.num (33/10))) = .ok false := by
  norm_num [evaluate_condition, condV, evalTriple, factsScenarioD, lookupF, OPS, opGe,
    pyCompare, ratCmp]

/-- Scenario D, condition `cgpa >= 2.5` of rule 3: `2 >= 2.5` is false. -/
theorem evalD_c3 :
    evaluate_condition factsScenarioD (condV "cgpa" ">=" (.num (5/2))) = .ok false := by
  norm_num [evaluate_condition, condV, evalTriple, factsScenarioD, lookupF, OPS, opGe,
    pyCompare, ratCmp]

/-- Scenario D, condition `cgpa < 2.5` of rule 4: `2 < 2.5` is true. -/
theorem evalD_c4 :
    evaluate_condition factsScenarioD (condV "cgpa" "<" (.num (5/2))) = .ok true := by
  norm_num [evaluate_condition, condV, evalTriple, factsScenarioD, lookupF, OPS, opLt,
    pyCompare, ratCmp]

/-- Scenario D, condition `disciplinary_actions >= 2` of rule 5: `3 >= 2` is true. -/
theorem evalD_c5 :
    evaluate_condition factsScenarioD (condV "disciplinary_actions" ">=" (.num 2)) = .ok true := by
  rfl

/-- Scenario D: rule 1 does not fire (short-circuits on its first condition). -/
theorem rmD_r1 : rule_matches factsScenarioD ruleTopMerit = .ok false := by
  simp [rule_matches, ruleTopMerit, condsList, allMatch, evalD_c1]

/-- Scenario D: rule 2 does not fire. -/
theorem rmD_r2 : rule_matches factsScenarioD ruleGoodPartial = .ok false := by
  simp [rule_matches, ruleGoodPartial, condsList, allMatch, evalD_c2]

/-- Scenario D: rule 3 does not fire. -/
theorem rmD_r3 : rule_matches factsScenarioD ruleNeedReview = .ok false := by
  simp [rule_matches, ruleNeedReview, condsList, allMatch, evalD_c3]

/-- Scenario D: rule 4 (low CGPA, priority 95) fires. -/
theorem rmD_r4 : rule_matches factsScenarioD ruleLowCgpa = .ok true := by
  simp [rule_matches, ruleLowCgpa, condsList, allMatch, evalD_c4]

/-- Scenario D: rule 5 (disciplinary, priority 90) fires. -/
theorem rmD_r5 : rule_matches factsScenarioD ruleDisciplinary = .ok true := by
  simp [rule_matches, ruleDisciplinary, condsList, allMatch, evalD_c5]

/-- Scenario D: exactly rules 4 and 5 pass the filter, in input order. -/
theorem fmD : filterMatched factsScenarioD DEFAULT_RULES = .ok [ruleLowCgpa, ruleDisciplinary] := by
  simp [filterMatched, DEFAULT_RULES, rmD_r1, rmD_r2, rmD_r3, rmD_r4, rmD_r5, Except.map]

/-- C1: on the fact set {cgpa: 2.0, disciplinary_actions: 3} against the
built-in default rule set, exactly the low-CGPA rule (priority 95) and the
disciplinary rule (priority 90) fire, the returned fired list is ordered
[priority 95, priority 90], and the winning action is the priority-95 rule's
REJECT action. -/
theorem scenarioD_run_rules :
    run_rules factsScenarioD DEFAULT_RULES =
      .ok (⟨"REJECT", "CGPA below minimum scholarship requirement"⟩,
           [ruleLowCgpa, ruleDisciplinary]) := by
  norm_num [run_rules, fmD, allComparable, keyOf, ruleLowCgpa, ruleDisciplinary,
    pyCompare, ratCmp, sortDesc, insertDesc, gtB, actionD]
  rfl

/-- Characterization of a successful filtering pass: the comprehension
keeps exactly the rules whose `rule_matches` evaluates to true, in input
order. -/
theorem filterMatched_eq_filter (facts : Facts) :
    ∀ (rs : List Rule) (l : List Rule), filterMatched facts rs = .ok l →
      l = rs.filter (matchB facts)
  | [], l, h => by
    simp only [filterMatched] at h
    cases h
    rfl
  | r :: rs, l, h => by
    unfold filterMatched at h
    cases hm : rule_matches facts r with
    | error e => rw [hm] at h; cases h
    | ok b =>
      rw [hm] at h
      cases b with
      | false =>
        simp only at h
        have := filterMatched_eq_filter facts rs l h
        simp [List.filter_cons, matchB, hm, this]
      | true =>
        simp only at h
        cases hf : filterMatched facts rs with
        | error e => rw [hf] at h; cases h
        | ok l' =>
          rw [hf] at h
          simp [Except.map] at h
          have := filterMatched_eq_filter facts rs l' hf
          simp [h.symm, List.filter_cons, matchB, hm, this]

/-- Filtering a list of uniformly non-matching rules keeps nothing and
raises nothing. -/
theorem filterMatched_all_false (facts : Facts) :
    ∀ (rs : List Rule), (∀ r ∈ rs, rule_matches facts r = .ok false) →
      filterMatched facts rs = .ok []
  | [], _ => rfl
  | r :: rs, h => by
    unfold filterMatched
    rw [h r (by simp)]
    exact filterMatched_all_false facts rs (fun r' hr' => h r' (by simp [hr']))

/-- C4: when every rule evaluates to non-match, `run_rules` returns the
fallback action {decision: REVIEW, reason: No rule matched} together with
an empty fired list. -/
theorem run_rules_no_match (facts : Facts) (rules : List Rule)
    (h : ∀ r ∈ rules, rule_matches facts r = .ok false) :
    run_rules facts rules = .ok (⟨"REVIEW", "No rule matched"⟩, []) := by
  unfold run_rules
  rw [filterMatched_all_false facts rules h]
  rfl

/-- Witness for C4 at the empty fact set and empty rule list. -/
theorem run_rules_no_match_witness :
    (∀ r ∈ ([] : List Rule), rule_matches [] r = .ok false) ∧
      run_rules [] [] = .ok (⟨"REVIEW", "No rule matched"⟩, []) :=
  ⟨by simp, run_rules_no_match [] [] (by simp)⟩

/-- Inversion of a successful run: either nothing matched and the
fallback was returned, or the fired list is the stable descending sort of
the matching rules and the winning action comes from its head. -/
theorem run_rules_ok_elim (facts : Facts) (rules : List Rule) (a : Action) (fired : List Rule)
    (h : run_rules facts rules = .ok (a, fired)) :
    (fired = [] ∧ a = fallbackNoMatch ∧ rules.filter (matchB facts) = []) ∨
    (rules.filter (matchB facts) ≠ [] ∧ fired = sortDesc (rules.filter (matchB facts)) ∧
      ∀ top rest, fired = top :: rest → a = actionD top) := by
  unfold run_rules at h
  cases hf : filterMatched facts rules with
  | error e => rw [hf] at h; cases h
  | ok m =>
    rw [hf] at h
    have hm := filterMatched_eq_filter facts rules m hf
    cases m with
    | nil =>
      simp only at h
      cases h
      exact Or.inl ⟨rfl, rfl, hm.symm⟩
    | cons r rs =>
      simp only at h
      split at h
      · cases hs : sortDesc (r :: rs) with
        | nil => rw [hs] at h; cases h
        | cons top rest =>
          rw [hs] at h
          cases h
          refine Or.inr ⟨by rw [← hm]; simp, ?_, ?_⟩
          · rw [← hm, hs]
          · intro top' rest' he
            cases he
            rfl
      · cases h

/-- C7: a condition whose field is absent from the fact set evaluates to
false, whatever its operator and value entries. -/
theorem evaluate_condition_missing_field (facts : Facts) (f : String) (o v : Value)
    (h : lookupF f facts = none) :
    evaluate_condition facts (.list [.str f, o, v]) = .ok false := by
  simp [evaluate_condition, evalTriple, h]

/-- Witness for C7: a missing field short-circuits before the (here even
unhashable) operator entry is inspected. -/
theorem evaluate_condition_missing_field_witness :
    lookupF "cgpa" [] = none ∧
      evaluate_condition [] (.list [.str "cgpa", .list [], .num 0]) = .ok false :=
  ⟨rfl, evaluate_condition_missing_field [] "cgpa" (.list []) (.num 0) rfl⟩

/-- Registry lookup of a symbol outside the closed operator set fails. -/
theorem OPS_not_mem (os : String)
    (h : os ∉ (["==", "!=", ">", ">=", "<", "<=", "in", "not_in"] : List String)) :
    OPS os = none := by
  simp only [List.mem_cons, List.mem_singleton, not_or] at h
  obtain ⟨h1, h2, h3, h4, h5, h6, h7, h8⟩ := h
  simp [OPS, h1, h2, h3, h4, h5, h6, h7, h8]

/-- C8: a condition whose operator symbol lies outside the fixed set
{==, !=, >, >=, <, <=, in, not_in} evaluates to false on every fact set. -/
theorem evaluate_condition_unknown_op (facts : Facts) (f os : String) (v : Value)
    (h : os ∉ (["==", "!=", ">", ">=", "<", "<=", "in", "not_in"] : List String)) :
    evaluate_condition facts (.list [.str f, .str os, v]) = .ok false := by
  simp only [evaluate_condition, evalTriple]
  cases hl : lookupF f facts with
  | none => rfl
  | some fv => simp [OPS_not_mem os h]

/-- Witness for C8 at the unknown operator symbol `almost` on a present
field. -/
theorem evaluate_condition_unknown_op_witness :
    ("almost" ∉ (["==", "!=", ">", ">=", "<", "<=", "in", "not_in"] : List String)) ∧
      evaluate_condition [("x", .num 1)] (.list [.str "x", .str "almost", .num 0]) = .ok false :=
  ⟨by decide, evaluate_condition_unknown_op [("x", .num 1)] "x" "almost" (.num 0) (by decide)⟩

/-- C5: when the field is present and the operator known but applying the
predicate raises (returns `none`), the fault is caught and the condition
evaluates to false. -/
theorem evaluate_condition_pred_fault (facts : Facts) (f os : String) (v fv : Value)
    (p : Value → Value → Option Bool)
    (h1 : lookupF f facts = some fv) (h2 : OPS os = some p) (h3 : p fv v = none) :
    evaluate_condition facts (.list [.str f, .str os, v]) = .ok false := by
  simp [evaluate_condition, evalTriple, h1, h2, h3]

/-- Witness for C5: ordering a string against a number with `>=` raises in
Python and yields false here. -/
theorem evaluate_condition_pred_fault_witness :
    lookupF "x" [("x", .str "a")] = some (.str "a") ∧
      OPS ">=" = some opGe ∧ opGe (.str "a") (.num 1) = none ∧
      evaluate_condition [("x", .str "a")] (.list [.str "x", .str ">=", .num 1]) = .ok false :=
  ⟨rfl, rfl, rfl,
    evaluate_condition_pred_fault [("x", .str "a")] "x" ">=" (.num 1) (.str "a") opGe rfl rfl rfl⟩

/-- C9: when a run succeeds with a non-empty fired list whose head carries
no `action` key, the winning action is the substitute
{decision: REVIEW, reason: No action}. -/
theorem run_rules_top_no_action (facts : Facts) (rules : List Rule) (a : Action)
    (fired : List Rule) (top : Rule) (rest : List Rule)
    (h : run_rules facts rules = .ok (a, fired)) (h2 : fired = top :: rest)
    (h3 : top.action = none) :
    a = ⟨"REVIEW", "No action"⟩ := by
  rcases run_rules_ok_elim facts rules a fired h with ⟨he, _, _⟩ | ⟨_, _, hw⟩
  · rw [he] at h2; cases h2
  · rw [hw top rest h2, actionD, h3]
    rfl

/-- Witness for C9 at a single always-matching rule without an action. -/
theorem run_rules_top_no_action_witness :
    run_rules [] [ruleNoAction] = .ok (⟨"REVIEW", "No action"⟩, [ruleNoAction]) ∧
      ruleNoAction.action = none ∧
      (⟨"REVIEW", "No action"⟩ : Action) = ⟨"REVIEW", "No action"⟩ :=
  ⟨rfl, rfl,
    run_rules_top_no_action [] [ruleNoAction] ⟨"REVIEW", "No action"⟩ [ruleNoAction]
      ruleNoAction [] rfl rfl rfl⟩

/-- C10: a rule record lacking the `conditions` key entirely is treated as
having an empty condition list and matches every fact set. -/
theorem rule_matches_no_conditions_key (facts : Facts) (n : Option String) (p : Option Value)
    (a : Option Action) :
    rule_matches facts ⟨n, p, none, a⟩ = .ok true := rfl

/-- Short-circuiting conjunction loop evaluated on fault-free conditions
is exactly the boolean conjunction of the individual evaluations. -/
theorem allMatch_eq_all (facts : Facts) :
    ∀ (cs : List Value), (∀ c ∈ cs, ∃ b, evaluate_condition facts c = .ok b) →
      allMatch facts cs = .ok (cs.all (evalB facts))
  | [], _ => rfl
  | c :: cs, h => by
    obtain ⟨b, hb⟩ := h c (by simp)
    unfold allMatch
    rw [hb]
    cases b with
    | false => simp [List.all_cons, evalB, hb]
    | true =>
      have := allMatch_eq_all facts cs (fun c' hc' => h c' (by simp [hc']))
      simp [List.all_cons, evalB, hb, this]

/-- C6: on fault-free conditions, `rule_matches` is exactly the logical
AND of `evaluate_condition` over the rule's condition list, with the empty
conjunction true. -/
theorem rule_matches_is_conjunction (facts : Facts) (n : Option String) (p : Option Value)
    (a : Option Action) (cs : List Value)
    (h : ∀ c ∈ cs, ∃ b, evaluate_condition facts c = .ok b) :
    rule_matches facts ⟨n, p, some (.list cs), a⟩ = .ok (cs.all (evalB facts)) := by
  simp only [rule_matches, condsList]
  exact allMatch_eq_all facts cs h

/-- Witness for C6 on a one-true-one-false condition pair. -/
theorem rule_matches_is_conjunction_witness :
    (∀ c ∈ condsPair, ∃ b, evaluate_condition factsMixed c = .ok b) ∧
      rule_matches factsMixed ⟨none, none, some (.list condsPair), none⟩ =
        .ok (condsPair.all (evalB factsMixed)) := by
  have hW : ∀ c ∈ condsPair, ∃ b, evaluate_condition factsMixed c = .ok b := by
    intro c hc
    simp only [condsPair, List.mem_cons, List.not_mem_nil, or_false] at hc
    rcases hc with rfl | rfl
    · exact ⟨true, rfl⟩
    · exact ⟨false, rfl⟩
  exact ⟨hW, rule_matches_is_conjunction factsMixed none none none condsPair hW⟩

/-- Comparing a rational with itself yields equality. -/
theorem ratCmp_self_aux (a : Rat) : ratCmp a a = .eq := by
  simp [ratCmp]

/-- Comparing a string with itself yields equality. -/
theorem strCmp_self (s : String) : strCmp s s = .eq := by
  simp [strCmp]

mutual

/-- Every embedded value compares equal to itself. -/
theorem pyCompare_self : (v : Value) → pyCompare v v = some .eq
  | .num a => by simp [pyCompare, ratCmp_self_aux]
  | .bool b => by simp [pyCompare, ratCmp_self_aux]
  | .str s => by simp [pyCompare, strCmp_self]
  | .list l => by
    simp only [pyCompare]
    exact cmpList_self l

/-- Every value list compares equal to itself. -/
theorem cmpList_self : (l : List Value) → cmpList l l = some .eq
  | [] => rfl
  | a :: as => by
    simp only [cmpList]
    cases h : pyEq a a with
    | false => simp [pyCompare_self a]
    | true => simp [cmpList_self as]

end

/-- No sort key is strictly greater than itself. -/
theorem gtB_self (k : Value) : gtB k k = false := by
  simp [gtB, pyCompare_self]

mutual

/-- Syntactic value equality agrees with propositional equality. -/
theorem vBeq_iff : (a b : Value) → (vBeq a b = true ↔ a = b)
  | .num a, .num b => by simp [vBeq]
  | .num a, .bool b => by simp [vBeq]
  | .num a, .str b => by simp [vBeq]
  | .num a, .list b => by simp [vBeq]
  | .bool a, .num b => by simp [vBeq]
  | .bool a, .bool b => by simp [vBeq]
  | .bool a, .str b => by simp [vBeq]
  | .bool a, .list b => by simp [vBeq]
  | .str a, .num b => by simp [vBeq]
  | .str a, .bool b => by simp [vBeq]
  | .str a, .str b => by simp [vBeq]
  | .str a, .list b => by simp [vBeq]
  | .list a, .num b => by simp [vBeq]
  | .list a, .bool b => by simp [vBeq]
  | .list a, .str b => by simp [vBeq]
  | .list a, .list b => by
    simp only [vBeq, Value.list.injEq]
    exact vlBeq_iff a b

/-- Syntactic value-list equality agrees with propositional equality. -/
theorem vlBeq_iff : (a b : List Value) → (vlBeq a b = true ↔ a = b)
  | [], [] => by simp [vlBeq]
  | [], b :: bs => by simp [vlBeq]
  | a :: as, [] => by simp [vlBeq]
  | a :: as, b :: bs => by
    simp [vlBeq, Bool.and_eq_true, vBeq_iff a b, vlBeq_iff as bs]

end

instance : DecidableEq Value := fun a b => decidable_of_iff (vBeq a b = true) (vBeq_iff a b)

/-- Inserting an element into a list keeps the subsequence of any
single-key class intact: the inserted element, which came later in the
input, lands behind every equal-key element already present. -/
theorem insertDesc_filter (p : Rule → Bool)
    (hp : ∀ r r', p r = true → p r' = true → keyOf r = keyOf r') (x : Rule) :
    ∀ l, (insertDesc x l).filter p = if p x then x :: l.filter p else l.filter p
  | [] => by
    cases hx : p x <;> simp [insertDesc, List.filter, hx]
  | h' :: t => by
    simp only [insertDesc]
    cases hg : gtB (keyOf h') (keyOf x) with
    | false =>
      cases hx : p x <;> simp [List.filter_cons, hx]
    | true =>
      have ih := insertDesc_filter p hp x t
      cases hx : p x with
      | false =>
        rw [hx] at ih
        simp only [if_neg Bool.false_ne_true] at ih
        simp [List.filter_cons, ih, hx]
      | true =>
        have hph : p h' = false := by
          cases hh : p h' with
          | false => rfl
          | true =>
            have hk := hp h' x hh hx
            rw [hk, gtB_self] at hg
            cases hg
        rw [hx] at ih
        simp only [if_pos rfl] at ih
        simp [List.filter_cons, hph, ih, hx]

/-- Stability of the descending sort: restricted to any single-key class,
the sorted list is the input list. -/
theorem sortDesc_filter (p : Rule → Bool)
    (hp : ∀ r r', p r = true → p r' = true → keyOf r = keyOf r') :
    ∀ l, (sortDesc l).filter p = l.filter p
  | [] => rfl
  | x :: xs => by
    simp only [sortDesc]
    rw [insertDesc_filter p hp x (sortDesc xs), sortDesc_filter p hp xs]
    cases hx : p x <;> simp [List.filter_cons, hx]

/-- A two-element subsequence of a list splits it into five blocks. -/
theorem pair_sublist {α : Type} {a b : α} :
    ∀ {l : List α}, List.Sublist [a, b] l → ∃ p q s, l = p ++ a :: q ++ b :: s
  | [], h => by cases h
  | h' :: t, h => by
    cases h with
    | cons _ h1 =>
      obtain ⟨p, q, s, hd⟩ := pair_sublist h1
      exact ⟨h' :: p, q, s, by simp [hd]⟩
    | cons₂ _ h1 =>
      have hb : b ∈ t := List.singleton_sublist.mp h1
      obtain ⟨q, s, hd⟩ := List.append_of_mem hb
      exact ⟨[], q, s, by simp [hd]⟩

/-- C2: on a successful run whose input contains two matching rules of
equal priority, the earlier rule appears before the later one in the
fired list; restricted to any one priority key the fired list equals the
matching rules in input order (stable sort); and the winning action is
the action of the fired list's head, so the earlier rule wins a tie at
the top. -/
theorem run_rules_tie_stable (facts : Facts) (l₁ l₂ l₃ : List Rule) (r₁ r₂ : Rule)
    (a : Action) (fired : List Rule)
    (hrun : run_rules facts (l₁ ++ r₁ :: l₂ ++ r₂ :: l₃) = .ok (a, fired))
    (hm₁ : rule_matches facts r₁ = .ok true) (hm₂ : rule_matches facts r₂ = .ok true)
    (hk : keyOf r₁ = keyOf r₂) :
    (∃ p q s, fired = p ++ r₁ :: q ++ r₂ :: s) ∧
    (∀ k : Value, fired.filter (fun r => decide (keyOf r = k)) =
      ((l₁ ++ r₁ :: l₂ ++ r₂ :: l₃).filter (matchB facts)).filter
        (fun r => decide (keyOf r = k))) ∧
    (∀ top rest, fired = top :: rest → a = actionD top) := by
  have hpk : ∀ k : Value, ∀ r r' : Rule, decide (keyOf r = k) = true →
      decide (keyOf r' = k) = true → keyOf r = keyOf r' := by
    intro k r r' hr hr'
    simp only [decide_eq_true_eq] at hr hr'
    rw [hr, hr']
  rcases run_rules_ok_elim facts _ a fired hrun with ⟨_, _, hnil⟩ | ⟨_, hsort, hw⟩
  · exfalso
    have hmem : r₁ ∈ (l₁ ++ r₁ :: l₂ ++ r₂ :: l₃).filter (matchB facts) := by
      rw [List.mem_filter]
      exact ⟨by simp, by simp [matchB, hm₁]⟩
    rw [hnil] at hmem
    exact absurd hmem (List.not_mem_nil _)
  · refine ⟨?_, ?_, hw⟩
    · have hsub : List.Sublist [r₁, r₂] (l₁ ++ r₁ :: l₂ ++ r₂ :: l₃) := by
        have h1 : List.Sublist [r₁] (l₁ ++ (r₁ :: l₂)) :=
          (List.singleton_sublist.mpr (by simp)).trans (List.sublist_append_right l₁ _)
        have h1' : List.Sublist [r₂] (r₂ :: l₃) := List.singleton_sublist.mpr (by simp)
        exact h1.append h1'
      have hsubf : List.Sublist [r₁, r₂]
          ((l₁ ++ r₁ :: l₂ ++ r₂ :: l₃).filter (matchB facts)) := by
        have h3 := hsub.filter (matchB facts)
        rwa [show [r₁, r₂].filter (matchB facts) = [r₁, r₂] from by
          simp [List.filter, matchB, hm₁, hm₂]] at h3
      have hsubp : List.Sublist [r₁, r₂]
          (((l₁ ++ r₁ :: l₂ ++ r₂ :: l₃).filter (matchB facts)).filter
            (fun r => decide (keyOf r = keyOf r₂))) := by
        have h4 := hsubf.filter (fun r => decide (keyOf r = keyOf r₂))
        rwa [show [r₁, r₂].filter (fun r => decide (keyOf r = keyOf r₂)) = [r₁, r₂] from by
          simp [List.filter, hk]] at h4
      rw [show (((l₁ ++ r₁ :: l₂ ++ r₂ :: l₃).filter (matchB facts)).filter
            (fun r => decide (keyOf r = keyOf r₂))) =
          fired.filter (fun r => decide (keyOf r = keyOf r₂)) from by
        rw [hsort, sortDesc_filter _ (hpk (keyOf r₂))]] at hsubp
      exact pair_sublist (hsubp.trans (List.filter_sublist fired))
    · intro k
      rw [hsort, sortDesc_filter _ (hpk k)]

/-- Witness for C2 on two always-matching rules of priority 50: the
earlier rule heads the fired list and its action wins. -/
theorem run_rules_tie_stable_witness :
    run_rules [] [ruleTieA, ruleTieB] = .ok (⟨"X", "first"⟩, [ruleTieA, ruleTieB]) ∧
      keyOf ruleTieA = keyOf ruleTieB ∧
      (∃ p q s, [ruleTieA, ruleTieB] = p ++ ruleTieA :: q ++ ruleTieB :: s) ∧
      (∀ top rest, [ruleTieA, ruleTieB] = top :: rest →
        (⟨"X", "first"⟩ : Action) = actionD top) := by
  have h := run_rules_tie_stable [] [] [] [] ruleTieA ruleTieB ⟨"X", "first"⟩
    [ruleTieA, ruleTieB] rfl rfl rfl rfl
  exact ⟨rfl, rfl, h.1, h.2.2⟩

/-- C3 counterexample: a rule whose `conditions` value is the number 5
makes `run_rules` raise (Python: `TypeError` from `len(5)`), refuting the
claim that the engine completes for every rule content. -/
theorem run_rules_raises_on_bad_conditions :
    run_rules [] [ruleBadConds] = .error () := rfl

/-- Triple evaluation cannot raise once field and operator entries are
not lists. -/
theorem evalTriple_ok (facts : Facts) (f o v : Value)
    (hf : isListV f = false) (ho : isListV o = false) :
    ∃ b, evalTriple facts f o v = .ok b := by
  cases f with
  | list l => simp [isListV] at hf
  | str s =>
    cases hl : lookupF s facts with
    | none => exact ⟨false, by simp [evalTriple, hl]⟩
    | some fv =>
      cases o with
      | list l => simp [isListV] at ho
      | str os =>
        cases hop : OPS os with
        | none => exact ⟨false, by simp [evalTriple, hl, hop]⟩
        | some p => exact ⟨(p fv v).getD false, by simp [evalTriple, hl, hop]⟩
      | num q => exact ⟨false, by simp [evalTriple, hl]⟩
      | bool b => exact ⟨false, by simp [evalTriple, hl]⟩
  | num q => exact ⟨false, by simp [evalTriple]⟩
  | bool b => exact ⟨false, by simp [evalTriple]⟩

/-- Condition evaluation cannot raise on a `condOk` condition. -/
theorem evaluate_condition_ok (facts : Facts) (c : Value) (hc : condOk c = true) :
    ∃ b, evaluate_condition facts c = .ok b := by
  cases c with
  | num q => simp [condOk] at hc
  | bool b => simp [condOk] at hc
  | str s =>
    simp only [evaluate_condition]
    split
    · exact evalTriple_ok facts _ _ _ rfl rfl
    · exact ⟨false, rfl⟩
  | list cs =>
    simp only [evaluate_condition]
    split
    · rename_i f o v heq
      rw [show cs = [f, o, v] from by injection heq] at hc
      simp only [condOk, Bool.and_eq_true, Bool.not_eq_true'] at hc
      exact evalTriple_ok facts f o v hc.1 hc.2
    · exact ⟨false, rfl⟩
    · rename_i s heq
      simp at heq
    · rename_i hx1 hx2 hx3
      exact absurd rfl (hx2 cs)

/-- The conjunction loop cannot raise on `condOk` conditions. -/
theorem allMatch_ok (facts : Facts) :
    ∀ cs : List Value, (∀ c ∈ cs, condOk c = true) → ∃ b, allMatch facts cs = .ok b
  | [], _ => ⟨true, rfl⟩
  | c :: cs, h => by
    obtain ⟨b, hb⟩ := evaluate_condition_ok facts c (h c (by simp))
    cases b with
    | false => exact ⟨false, by simp [allMatch, hb]⟩
    | true =>
      obtain ⟨b', hb'⟩ := allMatch_ok facts cs (fun c' hc' => h c' (by simp [hc']))
      exact ⟨b', by simp [allMatch, hb, hb']⟩

/-- Rule matching cannot raise on a `ruleOk` rule. -/
theorem rule_matches_ok (facts : Facts) (r : Rule) (h : ruleOk r = true) :
    ∃ b, rule_matches facts r = .ok b := by
  unfold rule_matches
  unfold ruleOk at h
  cases hc : r.conditions with
  | none => exact ⟨true, by simp [condsList, allMatch]⟩
  | some cv =>
    rw [hc] at h
    cases cv with
    | num q => simp at h
    | bool b => simp at h
    | str s =>
      simp only [condsList]
      apply allMatch_ok
      intro c hcm
      obtain ⟨ch, _, hch⟩ := List.mem_map.mp hcm
      rw [← hch]
      rfl
    | list cs =>
      simp only [condsList]
      exact allMatch_ok facts cs (fun c hcm => by
        simp only [List.all_eq_true] at h
        exact h c hcm)

/-- Filtering cannot raise on `ruleOk` rules. -/
theorem filterMatched_ok (facts : Facts) :
    ∀ rules : List Rule, (∀ r ∈ rules, ruleOk r = true) →
      ∃ l, filterMatched facts rules = .ok l
  | [], _ => ⟨[], rfl⟩
  | r :: rs, h => by
    obtain ⟨b, hb⟩ := rule_matches_ok facts r (h r (by simp))
    obtain ⟨l, hl⟩ := filterMatched_ok facts rs (fun r' hr' => h r' (by simp [hr']))
    cases b with
    | false => exact ⟨l, by simp [filterMatched, hb, hl]⟩
    | true => exact ⟨r :: l, by simp [filterMatched, hb, hl, Except.map]⟩

/-- Two numeric-valued (number or boolean) values are always comparable. -/
theorem pyCompare_isSome_of_nums (a b : Value)
    (ha : (toNum? a).isSome = true) (hb : (toNum? b).isSome = true) :
    (pyCompare a b).isSome = true := by
  cases a <;> cases b <;> simp_all [toNum?, pyCompare]

/-- A list of numeric-valued keys is mutually comparable. -/
theorem allComparable_of_nums :
    ∀ ks : List Value, (∀ k ∈ ks, (toNum? k).isSome = true) → allComparable ks = true
  | [], _ => rfl
  | k :: ks, h => by
    simp only [allComparable, Bool.and_eq_true, List.all_eq_true]
    refine ⟨fun j hj => pyCompare_isSome_of_nums k j (h k (by simp)) (h j (by simp [hj])), ?_⟩
    exact allComparable_of_nums ks (fun j hj => h j (by simp [hj]))

/-- Insertion never empties a list. -/
theorem insertDesc_ne_nil (x : Rule) (l : List Rule) : insertDesc x l ≠ [] := by
  cases l with
  | nil => simp [insertDesc]
  | cons h t =>
    simp only [insertDesc]
    split <;> simp

/-- C3 amended: for every fact set, `run_rules` completes without raising
on every rule list whose rules are well shaped — each rule's `conditions`
value, if present, is a string or a list whose length-three list entries
carry no list in field or operator position, and each priority key is
numeric.  Within that domain all per-condition faults are converted
locally to non-match. -/
theorem run_rules_total_on_wellshaped (facts : Facts) (rules : List Rule)
    (h : ∀ r ∈ rules, ruleOk r = true ∧ keyNum r = true) :
    ∃ res, run_rules facts rules = .ok res := by
  obtain ⟨m, hm⟩ := filterMatched_ok facts rules (fun r hr => (h r hr).1)
  have hmf := filterMatched_eq_filter facts rules m hm
  unfold run_rules
  rw [hm]
  cases m with
  | nil => exact ⟨(fallbackNoMatch, []), rfl⟩
  | cons r rs =>
    have hcomp : allComparable ((r :: rs).map keyOf) = true := by
      apply allComparable_of_nums
      intro k hk
      obtain ⟨rr, hrr, hkey⟩ := List.mem_map.mp hk
      have hrmem : rr ∈ rules := by
        rw [hmf] at hrr
        exact List.mem_of_mem_filter hrr
      have := (h rr hrmem).2
      rw [keyNum] at this
      rw [← hkey]
      exact this
    dsimp only
    simp only [hcomp, if_true]
    cases hs : sortDesc (r :: rs) with
    | nil =>
      exfalso
      rw [sortDesc] at hs
      exact insertDesc_ne_nil r (sortDesc rs) hs
    | cons top rest => exact ⟨(actionD top, top :: rest), by simp⟩

/-- Witness for the amended C3 on a rule mixing every harmless condition
shape. -/
theorem run_rules_total_on_wellshaped_witness :
    (∀ r ∈ [ruleShaped], ruleOk r = true ∧ keyNum r = true) ∧
      ∃ res, run_rules [] [ruleShaped] = .ok res :=
  ⟨by decide, run_rules_total_on_wellshaped [] [ruleShaped] (by decide)⟩

end RuleSys
